import Mathlib

/-!
Verification of the pkgsign package-signature checker: a shallow embedding
of the trust store, the files signature entry, and the module verifier,
together with theorems about their behaviour.
-/

namespace Pkgsign

/-- A signing identity: exactly the two optional fields of the source's
`SignatureIdentity` interface (`keybaseUser`, `pgpPublicKeyUrl`).
JavaScript `undefined` is modelled as `none`. -/
structure SignatureIdentity where
  keybaseUser : Option String
  pgpPublicKeyUrl : Option String
deriving DecidableEq, Repr

/-- The four verdict statuses of `ModuleVerificationStatus`. -/
inductive ModuleVerificationStatus where
  | Compromised
  | Unsigned
  | Untrusted
  | Trusted
deriving DecidableEq, Repr

/-- One element of a files entry: a relative path and its SHA-512 hex digest
(`SignatureFileEntry` in the source). -/
structure SignatureFileEntry where
  path : String
  sha512 : String
deriving DecidableEq, Repr

namespace SignatureFilesEntry

/-- The verification context consumed by `SignatureFilesEntry.verify`:
`dir`, `relFilesOnDisk`, `expectedPackageName`, the tags of all entries of
the signature document (`signatureEntries`, only their `entry` tag is
inspected), the pass-through fields, and the SHA-512 oracle standing for
`sha512OfFile` (a pure map from an absolute file path to the hex digest of
that file's on-disk content, the disk being immutable during one call). -/
structure VerificationContext where
  dir : String
  relFilesOnDisk : List String
  expectedPackageName : String
  signatureEntries : List String
  untrustedIdentity : Option SignatureIdentity
  untrustedPackageVersion : Option String
  isPrivate : Option Bool
  sha512OfFile : String → String

/-- The result object built by `SignatureFilesEntry.verify` on failure. -/
structure FilesVerificationResult where
  status : ModuleVerificationStatus
  reason : String
  packageName : String
  untrustedIdentity : Option SignatureIdentity
  untrustedPackageVersion : Option String
  isPrivate : Option Bool
deriving DecidableEq, Repr

/-- The `Compromised` result `SignatureFilesEntry.verify` returns, with the
pass-through fields copied from the context. -/
def compromisedResult (context : VerificationContext) (reason : String) :
    FilesVerificationResult :=
  { status := ModuleVerificationStatus.Compromised
    reason := reason
    packageName := context.expectedPackageName
    untrustedIdentity := context.untrustedIdentity
    untrustedPackageVersion := context.untrustedPackageVersion
    isPrivate := context.isPrivate }

/-- `relFileOnDisk.replace(/\\/g, '/')`: every backslash character becomes
a forward slash (the pattern is the single character `\`, so the global
replacement is a per-character map). -/
def normalise (relFileOnDisk : String) : String :=
  String.mk (relFileOnDisk.data.map (fun c => if c = '\x5c' then '/' else c))

/-- `skipPackageJsonExactVerification`:
`context.signatureEntries.some(x => x.entry === "packageJson/v1alpha1")`. -/
def skipPackageJsonExactVerification (context : VerificationContext) : Bool :=
  context.signatureEntries.any (fun x => x == "packageJson/v1alpha1")

/-- The inner scan of `verify` over `this.files`: visits every element
without breaking, so `found` is true when some element matches and
`expectedHash` holds the hash of the LAST matching element. -/
def scanFiles (files : List SignatureFileEntry) (normalisedPath : String) :
    Option String :=
  files.foldl
    (fun expectedHash expectedFile =>
      if expectedFile.path == normalisedPath then some expectedFile.sha512
      else expectedHash)
    none

/-- The first loop of `verify`: for each relative file on disk (skipping
`signature.json`, and `package.json` when a `packageJson/v1alpha1` entry is
present), fail if it is not in the files list, else fail if its SHA-512
differs from the listed hash. -/
def checkFilesOnDisk (files : List SignatureFileEntry)
    (context : VerificationContext) :
    List String → Option FilesVerificationResult
  | [] => none
  | relFileOnDisk :: rest =>
    if normalise relFileOnDisk == "signature.json" then
      checkFilesOnDisk files context rest
    else if normalise relFileOnDisk == "package.json" &&
        skipPackageJsonExactVerification context then
      checkFilesOnDisk files context rest
    else
      match scanFiles files (normalise relFileOnDisk) with
      | none =>
        some (compromisedResult context
          (normalise relFileOnDisk ++ " exists in the package, but was not in the signature"))
      | some expectedHash =>
        if context.sha512OfFile (context.dir ++ "/" ++ normalise relFileOnDisk) ≠ expectedHash then
          some (compromisedResult context
            (normalise relFileOnDisk ++ " does not have content that was signed for (mismatched hash)"))
        else
          checkFilesOnDisk files context rest

/-- The second loop of `verify`: for each file in the signature (except
`signature.json`), fail if it does not appear among the normalised on-disk
paths. -/
def checkFilesInSignature (context : VerificationContext) :
    List SignatureFileEntry → Option FilesVerificationResult
  | [] => none
  | fileEntry :: rest =>
    if fileEntry.path == "signature.json" then
      checkFilesInSignature context rest
    else if context.relFilesOnDisk.any
        (fun relFileOnDisk => normalise relFileOnDisk == fileEntry.path) then
      checkFilesInSignature context rest
    else
      some (compromisedResult context
        (fileEntry.path ++ " is expected by the signature, but is missing in the package"))

/-- `SignatureFilesEntry.verify`: run the on-disk loop, then the
signature-list loop, and return the first failure (or none). -/
def verify (files : List SignatureFileEntry) (context : VerificationContext) :
    Option FilesVerificationResult :=
  match checkFilesOnDisk files context context.relFilesOnDisk with
  | some r => some r
  | none => checkFilesInSignature context files

/-- `SignatureFilesEntry.toDeterministicString`: fold appending
`entry.path + '\n' + entry.sha512 + '\n'` for each element in stored
order. -/
def toDeterministicString (files : List SignatureFileEntry) : String :=
  files.foldl
    (fun deterministicString entry =>
      deterministicString ++ entry.path ++ "\n" ++ entry.sha512 ++ "\n")
    ""

/-- The canonical serialization at the character level: for each entry in
stored order, the path's characters, a line feed (0x0A), the hash's
characters, a line feed. -/
def serData : List SignatureFileEntry → List Char
  | [] => []
  | e :: rest => e.path.data ++ '\n' :: (e.sha512.data ++ '\n' :: serData rest)

/-- A string containing no line-feed character. -/
def lineFree (s : String) : Prop := '\n' ∉ s.data

instance (s : String) : Decidable (lineFree s) := by
  unfold lineFree
  exact inferInstance

/-- A disk path passes the first loop when it is skipped or is listed with a
matching hash. -/
def passesDiskCheck (files : List SignatureFileEntry)
    (context : VerificationContext) (relFileOnDisk : String) : Prop :=
  normalise relFileOnDisk = "signature.json" ∨
  (normalise relFileOnDisk = "package.json" ∧
    skipPackageJsonExactVerification context = true) ∨
  ∃ h, scanFiles files (normalise relFileOnDisk) = some h ∧
    context.sha512OfFile (context.dir ++ "/" ++ normalise relFileOnDisk) = h

instance (files : List SignatureFileEntry) (context : VerificationContext)
    (p : String) : Decidable (passesDiskCheck files context p) := by
  unfold passesDiskCheck
  exact inferInstance

end SignatureFilesEntry

namespace TrustStore

/-- The filesystem state the trust store touches: whether the
`.pkgsign-trust-store` directory exists, and the files inside it, keyed by
file name. A file's content is kept as its parse result: `none` stands for
content that does not parse as a `SignatureIdentity` JSON record. Lookup
takes the first matching key; writes prepend, so the newest write wins,
matching an overwriting filesystem. -/
structure FsState where
  dirExists : Bool
  files : List (String × Option SignatureIdentity)
deriving DecidableEq, Repr

/-- Lookup of a file in the trust-store directory (first match wins). -/
def readFile (files : List (String × Option SignatureIdentity))
    (filename : String) : Option (Option SignatureIdentity) :=
  (files.find? (fun kv => kv.1 == filename)).map (fun kv => kv.2)

/-- `createTrustStoreIfNecessary`: `mkdirSync` the directory when it does
not exist; no file is touched. -/
def createTrustStoreIfNecessary (s : FsState) : FsState :=
  if s.dirExists then s else { s with dirExists := true }

/-- `TrustStore.isTrusted`: create the directory if necessary, read
`<packageName>.trust`, parse it, and compare both identity fields with
strict equality; any read or parse failure yields `false`. Returns the
boolean together with the filesystem state after the call. -/
def isTrusted (s : FsState) (identity : SignatureIdentity)
    (packageName : String) : Bool × FsState :=
  let s' := createTrustStoreIfNecessary s
  match readFile s'.files (packageName ++ ".trust") with
  | none => (false, s')
  | some none => (false, s')
  | some (some trustInfo) =>
    (trustInfo.keybaseUser == identity.keybaseUser &&
      trustInfo.pgpPublicKeyUrl == identity.pgpPublicKeyUrl, s')

/-- `TrustStore.addTrusted`: create the directory if necessary and write
`JSON.stringify(identity)` to `<packageName>.trust` (overwriting any
previous record). -/
def addTrusted (s : FsState) (identity : SignatureIdentity)
    (packageName : String) : FsState :=
  let s' := createTrustStoreIfNecessary s
  { s' with files := (packageName ++ ".trust", some identity) :: s'.files }

end TrustStore

namespace ModuleVerifier

/-- The context `ModuleVerifier.verify` hands to each entry's content
check. -/
structure VerificationContext where
  dir : String
  relFilesOnDisk : List String
  expectedPackageName : String

/-- The result record of `ModuleVerifier.verify` (`ModuleVerificationResult`
in the source; optional fields model fields left `undefined`). -/
structure ModuleVerificationResult where
  status : ModuleVerificationStatus
  packageName : String
  reason : Option String
  untrustedIdentity : Option SignatureIdentity

/-- One parsed signature entry, seen through the `SignatureEntry` interface
the module verifier programs against: its content check, its identity
contribution, and its deterministic serialization. -/
structure SignatureEntry where
  verifyEntry : VerificationContext → Option ModuleVerificationResult
  getIdentity : Option SignatureIdentity
  toDeterministicString : String

/-- The parsed signature document (`SignatureInfo`): the ordered entry list
and the detached signature string. -/
structure SignatureInfo where
  entries : List SignatureEntry
  signature : String

/-- Modelled from the spec: `createDeterministicString` lives in
`signature.ts`, which is not among the given sources; per the spec the
canonical message is the concatenation, in document order, of each entry's
canonical serialization. -/
def createDeterministicString (signature : SignatureInfo) : String :=
  String.join (signature.entries.map (fun e => e.toDeterministicString))

/-- The `package.json` parse result as far as `verify` inspects it: JSON
`null`, or a value whose `name` member is an optional string (`none` for an
absent `name`; a missing or unparsable file is a failed read, kept outside
this type). -/
inductive PackageJson where
  | jnull
  | jobj (name : Option String)
deriving DecidableEq, Repr

/-- `packageInfo == null` (JavaScript loose equality against `null`). -/
def packageJsonIsNull : PackageJson → Bool
  | PackageJson.jnull => true
  | PackageJson.jobj _ => false

/-- `packageInfo.name || ''`: a missing or empty `name` collapses to the
empty string. (The `jnull` arm is unreachable in `verify`: the null check
short-circuits first.) -/
def effectiveName : PackageJson → String
  | PackageJson.jnull => ""
  | PackageJson.jobj none => ""
  | PackageJson.jobj (some s) => s

/-- The outside world of one `ModuleVerifier.verify` call: the outcome of
reading and parsing `signature.json` (`none` when `readFilePromise` or
`SignatureParser.parse` throws), the two identity verifiers
(`KeybaseVerifier.verify` / `PgpVerifier.verify`, taking identity,
signature and deterministic string), the outcome of reading and parsing
`package.json`, and `TrustStore.isTrusted`. -/
structure VerifierEnv where
  parsedSignature : Option SignatureInfo
  keybaseVerify : SignatureIdentity → String → String → Bool
  pgpVerify : SignatureIdentity → String → String → Bool
  packageJson : Option PackageJson
  isTrusted : SignatureIdentity → String → Bool

/-- The entry loop of `verify`: first non-null entry result wins. -/
def findEntryFailure (context : VerificationContext) :
    List SignatureEntry → Option ModuleVerificationResult
  | [] => none
  | entry :: rest =>
    match entry.verifyEntry context with
    | some entryResult => some entryResult
    | none => findEntryFailure context rest

/-- The identity loop of `verify`: first entry whose `getIdentity` is
non-null wins (the source breaks out of the loop). -/
def findIdentity : List SignatureEntry → Option SignatureIdentity
  | [] => none
  | entry :: rest =>
    match entry.getIdentity with
    | some localIdentity => some localIdentity
    | none => findIdentity rest

/-- Steps 6-9 of `verify`, after the verifier has been selected and run:
signature mismatch, then `package.json` read, then the name check, then the
trust store. -/
def verifyTail (env : VerifierEnv) (expectedPackageName : String)
    (identity : SignatureIdentity) (verified : Bool) :
    ModuleVerificationResult :=
  if !verified then
    { status := ModuleVerificationStatus.Compromised
      packageName := expectedPackageName
      reason := some "The signature does not match"
      untrustedIdentity := none }
  else
    match env.packageJson with
    | none =>
      { status := ModuleVerificationStatus.Compromised
        packageName := expectedPackageName
        reason := some "Missing or unparsable package.json"
        untrustedIdentity := none }
    | some packageInfo =>
      if packageJsonIsNull packageInfo ||
          effectiveName packageInfo ≠ expectedPackageName then
        { status := ModuleVerificationStatus.Compromised
          packageName := expectedPackageName
          reason := some "Provided package name in package.json did not match expected package name"
          untrustedIdentity := none }
      else if env.isTrusted identity expectedPackageName then
        { status := ModuleVerificationStatus.Trusted
          packageName := expectedPackageName
          reason := none
          untrustedIdentity := none }
      else
        { status := ModuleVerificationStatus.Untrusted
          packageName := expectedPackageName
          reason := none
          untrustedIdentity := some identity }

/-- `ModuleVerifier.verify`: the verdict state machine over one package
directory, with IO and crypto supplied by `env`. -/
def verify (env : VerifierEnv) (dir : String) (relFilesOnDisk : List String)
    (expectedPackageName : String) : ModuleVerificationResult :=
  match env.parsedSignature with
  | none =>
    { status := ModuleVerificationStatus.Unsigned
      packageName := expectedPackageName
      reason := some "Missing or unparsable signature.json"
      untrustedIdentity := none }
  | some signature =>
    let deterministicString := createDeterministicString signature
    let context : VerificationContext :=
      { dir := dir
        relFilesOnDisk := relFilesOnDisk
        expectedPackageName := expectedPackageName }
    match findEntryFailure context signature.entries with
    | some entryResult => entryResult
    | none =>
      match findIdentity signature.entries with
      | none =>
        { status := ModuleVerificationStatus.Compromised
          packageName := expectedPackageName
          reason := some "No identity information in signature.json"
          untrustedIdentity := none }
      | some identity =>
        if identity.keybaseUser.isSome then
          verifyTail env expectedPackageName identity
            (env.keybaseVerify identity signature.signature deterministicString)
        else if identity.pgpPublicKeyUrl.isSome then
          verifyTail env expectedPackageName identity
            (env.pgpVerify identity signature.signature deterministicString)
        else
          { status := ModuleVerificationStatus.Compromised
            packageName := expectedPackageName
            reason := some "Unknown identity in signature.json"
            untrustedIdentity := none }

end ModuleVerifier

/-! ## Concrete fixtures used to instantiate the theorems -/

/-- A context whose directory holds one file `evil.txt` (every file hashes
to `"H"`), with no signature entries. -/
def wCtxExtra : SignatureFilesEntry.VerificationContext :=
  { dir := "d"
    relFilesOnDisk := ["evil.txt"]
    expectedPackageName := "p"
    signatureEntries := ["files/v1alpha1"]
    untrustedIdentity := none
    untrustedPackageVersion := none
    isPrivate := none
    sha512OfFile := fun _ => "H" }

/-- A context whose directory holds no file at all. -/
def wCtxEmptyDisk : SignatureFilesEntry.VerificationContext :=
  { dir := "d"
    relFilesOnDisk := []
    expectedPackageName := "p"
    signatureEntries := ["files/v1alpha1"]
    untrustedIdentity := none
    untrustedPackageVersion := none
    isPrivate := none
    sha512OfFile := fun _ => "H" }

/-- A context whose directory holds one file `x` whose content hashes to
`"A"`. -/
def wCtxDup : SignatureFilesEntry.VerificationContext :=
  { dir := "d"
    relFilesOnDisk := ["x"]
    expectedPackageName := "p"
    signatureEntries := ["files/v1alpha1"]
    untrustedIdentity := none
    untrustedPackageVersion := none
    isPrivate := none
    sha512OfFile := fun _ => "A" }

/-- An entry whose content check always passes and which contributes the
Keybase identity `alice`. -/
def wEntryAlice : ModuleVerifier.SignatureEntry :=
  { verifyEntry := fun _ => none
    getIdentity := some ⟨some "alice", none⟩
    toDeterministicString := "keybase\x0aalice\x0a" }

/-- A one-entry signature document signed (detached) with `"SIG"`. -/
def wSigDoc : ModuleVerifier.SignatureInfo :=
  { entries := [wEntryAlice], signature := "SIG" }

/-- An environment in which the signature parses, both verifiers reject
every signature, `package.json` is unreadable, and everything is trusted. -/
def wEnvReject : ModuleVerifier.VerifierEnv :=
  { parsedSignature := some wSigDoc
    keybaseVerify := fun _ _ _ => false
    pgpVerify := fun _ _ _ => false
    packageJson := none
    isTrusted := fun _ _ => true }

/-- An environment in which `signature.json` is missing or unparsable. -/
def wEnvNoSig : ModuleVerifier.VerifierEnv :=
  { parsedSignature := none
    keybaseVerify := fun _ _ _ => true
    pgpVerify := fun _ _ _ => true
    packageJson := some (ModuleVerifier.PackageJson.jobj (some "p"))
    isTrusted := fun _ _ => true }

/-- An environment in which the signature parses and validates but
`package.json` parses to JSON `null`. -/
def wEnvNullPkg : ModuleVerifier.VerifierEnv :=
  { parsedSignature := some wSigDoc
    keybaseVerify := fun _ _ _ => true
    pgpVerify := fun _ _ _ => true
    packageJson := some ModuleVerifier.PackageJson.jnull
    isTrusted := fun _ _ => false }

/-! ## Helper lemmas: trust store -/

namespace TrustStore

lemma createTrustStoreIfNecessary_eq (s : FsState) :
    createTrustStoreIfNecessary s = { dirExists := true, files := s.files } := by
  unfold createTrustStoreIfNecessary
  cases s with
  | mk d fs => cases d <;> simp

lemma isTrusted_snd (s : FsState) (identity : SignatureIdentity)
    (packageName : String) :
    (isTrusted s identity packageName).2 = { dirExists := true, files := s.files } := by
  unfold isTrusted
  rw [createTrustStoreIfNecessary_eq]
  rcases h : readFile s.files (packageName ++ ".trust") with _ | _ | _ <;> simp [h]

lemma isTrusted_addTrusted_fst (s : FsState) (id1 id2 : SignatureIdentity)
    (n : String) :
    (isTrusted (addTrusted s id1 n) id2 n).1 =
      (id1.keybaseUser == id2.keybaseUser &&
        id1.pgpPublicKeyUrl == id2.pgpPublicKeyUrl) := by
  unfold isTrusted addTrusted
  rw [createTrustStoreIfNecessary_eq, createTrustStoreIfNecessary_eq]
  simp [readFile, List.find?]

end TrustStore

/-! ## Claim theorems: trust store -/

/-- C6: `isTrusted(identity, packageName)` returns true exactly when the
trust record file `<packageName>.trust` exists, parses as an identity, and
agrees with `identity` on both the `keybaseUser` and `pgpPublicKeyUrl`
fields (an absent field matching only an absent field); a missing or
unparsable record yields `false` (the model's `isTrusted` is a total
function: no error escapes). -/
theorem trustStore_isTrusted_spec (s : TrustStore.FsState)
    (identity : SignatureIdentity) (packageName : String) :
    (TrustStore.isTrusted s identity packageName).1 = true ↔
      ∃ trustInfo : SignatureIdentity,
        TrustStore.readFile s.files (packageName ++ ".trust") = some (some trustInfo) ∧
        trustInfo.keybaseUser = identity.keybaseUser ∧
        trustInfo.pgpPublicKeyUrl = identity.pgpPublicKeyUrl := by
  unfold TrustStore.isTrusted
  rw [TrustStore.createTrustStoreIfNecessary_eq]
  rcases h : TrustStore.readFile s.files (packageName ++ ".trust") with _ | _ | t <;>
    simp [h]

/-- C7: immediately after `addTrusted(id, n)`, `isTrusted(id, n)` is true
and `isTrusted(id', n)` is false for every identity differing from `id` in
some field; a second `addTrusted` for the same name overwrites the record,
so only the latest identity is trusted. -/
theorem trustStore_addTrusted_trusts_latest (s : TrustStore.FsState)
    (id1 id2 : SignatureIdentity) (n : String) :
    (TrustStore.isTrusted (TrustStore.addTrusted s id1 n) id1 n).1 = true
    ∧ (∀ id' : SignatureIdentity,
        id'.keybaseUser ≠ id1.keybaseUser ∨ id'.pgpPublicKeyUrl ≠ id1.pgpPublicKeyUrl →
        (TrustStore.isTrusted (TrustStore.addTrusted s id1 n) id' n).1 = false)
    ∧ (TrustStore.isTrusted
        (TrustStore.addTrusted (TrustStore.addTrusted s id1 n) id2 n) id2 n).1 = true
    ∧ (id1.keybaseUser ≠ id2.keybaseUser ∨ id1.pgpPublicKeyUrl ≠ id2.pgpPublicKeyUrl →
        (TrustStore.isTrusted
          (TrustStore.addTrusted (TrustStore.addTrusted s id1 n) id2 n) id1 n).1 = false) := by
  refine ⟨?_, ?_, ?_, ?_⟩
  · simp [TrustStore.isTrusted_addTrusted_fst]
  · intro id' h
    rw [TrustStore.isTrusted_addTrusted_fst]
    rcases h with h | h <;> simp <;> intro hc <;>
      first
        | exact absurd hc.symm h
        | (intro hc2; exact absurd hc2.symm h)
  · simp [TrustStore.isTrusted_addTrusted_fst]
  · intro h
    rw [TrustStore.isTrusted_addTrusted_fst]
    rcases h with h | h <;> simp <;> intro hc <;>
      first
        | exact absurd hc.symm h
        | (intro hc2; exact absurd hc2.symm h)

/-- C7 witness: with a fresh store, after trusting alice for "p", alice is
trusted, bob is not, and after a later addTrusted for bob, only bob is. -/
theorem trustStore_addTrusted_trusts_latest_witness :
    (TrustStore.isTrusted
      (TrustStore.addTrusted ⟨false, []⟩ ⟨some "alice", none⟩ "p")
      ⟨some "alice", none⟩ "p").1 = true
    ∧ (TrustStore.isTrusted
        (TrustStore.addTrusted ⟨false, []⟩ ⟨some "alice", none⟩ "p")
        ⟨some "bob", none⟩ "p").1 = false
    ∧ (TrustStore.isTrusted
        (TrustStore.addTrusted
          (TrustStore.addTrusted ⟨false, []⟩ ⟨some "alice", none⟩ "p")
          ⟨some "bob", none⟩ "p") ⟨some "bob", none⟩ "p").1 = true
    ∧ (TrustStore.isTrusted
        (TrustStore.addTrusted
          (TrustStore.addTrusted ⟨false, []⟩ ⟨some "alice", none⟩ "p")
          ⟨some "bob", none⟩ "p") ⟨some "alice", none⟩ "p").1 = false := by
  obtain ⟨h1, h2, h3, h4⟩ :=
    trustStore_addTrusted_trusts_latest ⟨false, []⟩
      ⟨some "alice", none⟩ ⟨some "bob", none⟩ "p"
  exact ⟨h1, h2 ⟨some "bob", none⟩ (Or.inl (by decide)), h3, h4 (Or.inl (by decide))⟩

/-- C8 counterexample: the claim says `isTrusted` leaves the filesystem
unchanged and in particular does not create the trust-store directory when
it is missing; but `isTrusted` calls `createTrustStoreIfNecessary`, which
runs `mkdirSync` when the directory does not exist, so on a state without
the directory the state after the call differs from the state before. -/
theorem trustStore_isTrusted_creates_directory :
    (TrustStore.FsState.mk false []).dirExists = false
    ∧ ((TrustStore.isTrusted ⟨false, []⟩ ⟨some "alice", none⟩ "p").2).dirExists = true
    ∧ (TrustStore.isTrusted ⟨false, []⟩ ⟨some "alice", none⟩ "p").2 ≠
        TrustStore.FsState.mk false [] := by
  refine ⟨rfl, ?_, ?_⟩
  · rw [TrustStore.isTrusted_snd]
  · rw [TrustStore.isTrusted_snd]
    simp

/-- C8 (amended): `isTrusted` never creates, modifies or deletes a file —
the file list is unchanged — but it does create the trust-store directory
when it is missing (the directory is created on first access by any
trust-store operation, read or write, not only on the first write). -/
theorem trustStore_isTrusted_fs_effect (s : TrustStore.FsState)
    (identity : SignatureIdentity) (packageName : String) :
    (TrustStore.isTrusted s identity packageName).2 =
      { dirExists := true, files := s.files } :=
  TrustStore.isTrusted_snd s identity packageName

/-! ## Helper lemmas: files entry -/

namespace SignatureFilesEntry

lemma scanFiles_concat (files : List SignatureFileEntry)
    (e : SignatureFileEntry) (p : String) :
    scanFiles (files ++ [e]) p =
      if e.path == p then some e.sha512 else scanFiles files p := by
  simp [scanFiles, List.foldl_append]

lemma scanFiles_eq_getLast (files : List SignatureFileEntry) (p : String) :
    scanFiles files p =
      ((files.filter (fun e => e.path == p)).getLast?).map (fun e => e.sha512) := by
  induction files using List.reverseRecOn with
  | nil => rfl
  | append_singleton l e ih =>
    rw [scanFiles_concat]
    by_cases h : e.path == p
    · simp [h, List.filter_append]
    · simp [h, List.filter_append, ih]

lemma scanFiles_eq_none_iff (files : List SignatureFileEntry) (p : String) :
    scanFiles files p = none ↔ ∀ e ∈ files, e.path ≠ p := by
  induction files using List.reverseRecOn with
  | nil => simp [scanFiles]
  | append_singleton l e ih =>
    rw [scanFiles_concat]
    by_cases h : e.path == p
    · have hp : e.path = p := by simpa using h
      rw [if_pos h]
      constructor
      · intro hc
        exact Option.noConfusion hc
      · intro hall
        exact absurd hp (hall e (List.mem_append_right _ (List.mem_singleton_self e)))
    · have hp : e.path ≠ p := by simpa using h
      rw [if_neg h, ih]
      constructor
      · intro hall x hx
        rcases List.mem_append.mp hx with hx | hx
        · exact hall x hx
        · rw [List.mem_singleton.mp hx]
          exact hp
      · intro hall x hx
        exact hall x (List.mem_append_left _ hx)

lemma not_passesDiskCheck (files : List SignatureFileEntry)
    (context : VerificationContext) (f : String)
    (h1 : normalise f ≠ "signature.json")
    (h2 : ¬ (normalise f = "package.json" ∧
        skipPackageJsonExactVerification context = true))
    (h3 : ∀ hh, scanFiles files (normalise f) = some hh →
        context.sha512OfFile (context.dir ++ "/" ++ normalise f) ≠ hh) :
    ¬ passesDiskCheck files context f := by
  rintro (hp | hp | ⟨hh, hsc, hsh⟩)
  · exact h1 hp
  · exact h2 hp
  · exact h3 hh hsc hsh

lemma checkFilesOnDisk_eq_none_iff (files : List SignatureFileEntry)
    (context : VerificationContext) (l : List String) :
    checkFilesOnDisk files context l = none ↔
      ∀ f ∈ l, passesDiskCheck files context f := by
  induction l with
  | nil => simp [checkFilesOnDisk]
  | cons f rest ih =>
    rw [checkFilesOnDisk]
    by_cases h1 : normalise f == "signature.json"
    · have hp : passesDiskCheck files context f := Or.inl (by simpa using h1)
      rw [if_pos h1, ih]
      simp [List.forall_mem_cons, hp]
    · rw [if_neg h1]
      by_cases h2 : (normalise f == "package.json" &&
          skipPackageJsonExactVerification context)
      · have hp : passesDiskCheck files context f := by
          refine Or.inr (Or.inl ?_)
          simpa [Bool.and_eq_true] using h2
        rw [if_pos h2, ih]
        simp [List.forall_mem_cons, hp]
      · rw [if_neg h2]
        have h1' : normalise f ≠ "signature.json" := by simpa using h1
        have h2' : ¬ (normalise f = "package.json" ∧
            skipPackageJsonExactVerification context = true) := by
          simpa [Bool.and_eq_true] using h2
        rcases hscan : scanFiles files (normalise f) with _ | hh
        · simp only [hscan]
          constructor
          · intro hc
            exact Option.noConfusion hc
          · intro hall
            rcases hall f (List.mem_cons_self f rest) with hp | hp | ⟨hh, hsc, _⟩
            · exact absurd hp h1'
            · exact absurd hp h2'
            · rw [hscan] at hsc
              exact Option.noConfusion hsc
        · simp only [hscan]
          by_cases h3 : context.sha512OfFile (context.dir ++ "/" ++ normalise f) ≠ hh
          · rw [if_pos h3]
            constructor
            · intro hc
              exact Option.noConfusion hc
            · intro hall
              rcases hall f (List.mem_cons_self f rest) with hp | hp | ⟨hh', hsc, hsh⟩
              · exact absurd hp h1'
              · exact absurd hp h2'
              · rw [hscan] at hsc
                cases hsc
                exact absurd hsh h3
          · have hp : passesDiskCheck files context f := by
              refine Or.inr (Or.inr ⟨hh, hscan, ?_⟩)
              simpa using h3
            rw [if_neg h3, ih]
            simp [List.forall_mem_cons, hp]

lemma checkFilesOnDisk_eq_some (files : List SignatureFileEntry)
    (context : VerificationContext) (l : List String)
    (r : FilesVerificationResult)
    (h : checkFilesOnDisk files context l = some r) :
    ∃ f ∈ l, ¬ passesDiskCheck files context f ∧
      ((scanFiles files (normalise f) = none ∧
        r = compromisedResult context
          (normalise f ++ " exists in the package, but was not in the signature")) ∨
       (∃ hh, scanFiles files (normalise f) = some hh ∧
        context.sha512OfFile (context.dir ++ "/" ++ normalise f) ≠ hh ∧
        r = compromisedResult context
          (normalise f ++ " does not have content that was signed for (mismatched hash)"))) := by
  induction l with
  | nil => exact Option.noConfusion h
  | cons f rest ih =>
    rw [checkFilesOnDisk] at h
    by_cases h1 : normalise f == "signature.json"
    · rw [if_pos h1] at h
      obtain ⟨g, hg, hrest⟩ := ih h
      exact ⟨g, List.mem_cons_of_mem _ hg, hrest⟩
    · rw [if_neg h1] at h
      by_cases h2 : (normalise f == "package.json" &&
          skipPackageJsonExactVerification context)
      · rw [if_pos h2] at h
        obtain ⟨g, hg, hrest⟩ := ih h
        exact ⟨g, List.mem_cons_of_mem _ hg, hrest⟩
      · rw [if_neg h2] at h
        have h1' : normalise f ≠ "signature.json" := by simpa using h1
        have h2' : ¬ (normalise f = "package.json" ∧
            skipPackageJsonExactVerification context = true) := by
          simpa [Bool.and_eq_true] using h2
        rcases hscan : scanFiles files (normalise f) with _ | hh
        · simp only [hscan] at h
          cases h
          refine ⟨f, List.mem_cons_self f rest, ?_, Or.inl ⟨hscan, rfl⟩⟩
          refine not_passesDiskCheck files context f h1' h2' ?_
          intro hh hsc
          rw [hscan] at hsc
          exact Option.noConfusion hsc
        · simp only [hscan] at h
          by_cases h3 : context.sha512OfFile (context.dir ++ "/" ++ normalise f) ≠ hh
          · rw [if_pos h3] at h
            cases h
            refine ⟨f, List.mem_cons_self f rest, ?_, Or.inr ⟨hh, hscan, h3, rfl⟩⟩
            refine not_passesDiskCheck files context f h1' h2' ?_
            intro hh' hsc
            rw [hscan] at hsc
            cases hsc
            exact h3
          · rw [if_neg h3] at h
            obtain ⟨g, hg, hrest⟩ := ih h
            exact ⟨g, List.mem_cons_of_mem _ hg, hrest⟩

lemma checkFilesInSignature_eq_none_iff (context : VerificationContext)
    (files : List SignatureFileEntry) :
    checkFilesInSignature context files = none ↔
      ∀ e ∈ files, e.path = "signature.json" ∨
        ∃ f ∈ context.relFilesOnDisk, normalise f = e.path := by
  induction files with
  | nil => simp [checkFilesInSignature]
  | cons e rest ih =>
    rw [checkFilesInSignature]
    by_cases h1 : e.path == "signature.json"
    · have hp : e.path = "signature.json" := by simpa using h1
      rw [if_pos h1, ih]
      simp [List.forall_mem_cons, hp]
    · rw [if_neg h1]
      have h1' : e.path ≠ "signature.json" := by simpa using h1
      by_cases h2 : context.relFilesOnDisk.any
          (fun relFileOnDisk => normalise relFileOnDisk == e.path)
      · have hp : ∃ f ∈ context.relFilesOnDisk, normalise f = e.path := by
          simpa using h2
        rw [if_pos h2, ih]
        simp [List.forall_mem_cons, hp]
      · rw [if_neg h2]
        constructor
        · intro hc
          exact Option.noConfusion hc
        · intro hall
          rcases hall e (List.mem_cons_self e rest) with hp | hp
          · exact absurd hp h1'
          · refine absurd ?_ h2
            simpa using hp

lemma checkFilesInSignature_eq_some (context : VerificationContext)
    (files : List SignatureFileEntry) (r : FilesVerificationResult)
    (h : checkFilesInSignature context files = some r) :
    ∃ e ∈ files, e.path ≠ "signature.json" ∧
      (∀ f ∈ context.relFilesOnDisk, normalise f ≠ e.path) ∧
      r = compromisedResult context
        (e.path ++ " is expected by the signature, but is missing in the package") := by
  induction files with
  | nil => exact Option.noConfusion h
  | cons e rest ih =>
    rw [checkFilesInSignature] at h
    by_cases h1 : e.path == "signature.json"
    · rw [if_pos h1] at h
      obtain ⟨g, hg, hrest⟩ := ih h
      exact ⟨g, List.mem_cons_of_mem _ hg, hrest⟩
    · rw [if_neg h1] at h
      by_cases h2 : context.relFilesOnDisk.any
          (fun relFileOnDisk => normalise relFileOnDisk == e.path)
      · rw [if_pos h2] at h
        obtain ⟨g, hg, hrest⟩ := ih h
        exact ⟨g, List.mem_cons_of_mem _ hg, hrest⟩
      · rw [if_neg h2] at h
        cases h
        refine ⟨e, List.mem_cons_self e rest, by simpa using h1, ?_, rfl⟩
        intro f hf hnf
        refine h2 ?_
        simp only [List.any_eq_true]
        exact ⟨f, hf, by simpa using hnf⟩

lemma append_newline_inj (x1 : List Char) :
    ∀ (x2 r1 r2 : List Char), '\n' ∉ x1 → '\n' ∉ x2 →
    x1 ++ '\n' :: r1 = x2 ++ '\n' :: r2 → x1 = x2 ∧ r1 = r2 := by
  induction x1 with
  | nil =>
    intro x2 r1 r2 _ h2 heq
    cases x2 with
    | nil => simpa using heq
    | cons c t =>
      simp only [List.nil_append, List.cons_append, List.cons.injEq] at heq
      exact absurd (by rw [heq.1]; exact List.mem_cons_self c t) h2
  | cons c t ih =>
    intro x2 r1 r2 h1 h2 heq
    cases x2 with
    | nil =>
      simp only [List.nil_append, List.cons_append, List.cons.injEq] at heq
      exact absurd (by rw [← heq.1]; exact List.mem_cons_self c t) h1
    | cons c2 t2 =>
      simp only [List.cons_append, List.cons.injEq] at heq
      obtain ⟨hc, heq'⟩ := heq
      obtain ⟨ht, hr⟩ := ih t2 r1 r2
        (fun hm => h1 (List.mem_cons_of_mem c hm))
        (fun hm => h2 (List.mem_cons_of_mem c2 hm)) heq'
      exact ⟨by rw [hc, ht], hr⟩

lemma serData_inj (l1 : List SignatureFileEntry) :
    ∀ l2 : List SignatureFileEntry,
    (∀ e ∈ l1, lineFree e.path ∧ lineFree e.sha512) →
    (∀ e ∈ l2, lineFree e.path ∧ lineFree e.sha512) →
    serData l1 = serData l2 → l1 = l2 := by
  induction l1 with
  | nil =>
    intro l2 _ _ heq
    cases l2 with
    | nil => rfl
    | cons e t =>
      rw [serData, serData] at heq
      rcases List.append_eq_nil.mp heq.symm with ⟨_, hc⟩
      exact List.noConfusion hc
  | cons e t ih =>
    intro l2 h1 h2 heq
    cases l2 with
    | nil =>
      rw [serData, serData] at heq
      rcases List.append_eq_nil.mp heq with ⟨_, hc⟩
      exact List.noConfusion hc
    | cons e2 t2 =>
      rw [serData, serData] at heq
      obtain ⟨hpath, hrest⟩ := append_newline_inj e.path.data e2.path.data _ _
        (h1 e (List.mem_cons_self e t)).1 (h2 e2 (List.mem_cons_self e2 t2)).1 heq
      obtain ⟨hsha, htail⟩ := append_newline_inj e.sha512.data e2.sha512.data _ _
        (h1 e (List.mem_cons_self e t)).2 (h2 e2 (List.mem_cons_self e2 t2)).2 hrest
      have hp : e.path = e2.path := String.ext hpath
      have hs : e.sha512 = e2.sha512 := String.ext hsha
      have ht : t = t2 := ih t2
        (fun x hx => h1 x (List.mem_cons_of_mem e hx))
        (fun x hx => h2 x (List.mem_cons_of_mem e2 hx)) htail
      cases e
      cases e2
      simp_all

lemma toDeterministicString_foldl_data (files : List SignatureFileEntry) :
    ∀ acc : String,
    (files.foldl
      (fun deterministicString entry =>
        deterministicString ++ entry.path ++ "\n" ++ entry.sha512 ++ "\n")
      acc).data = acc.data ++ serData files := by
  induction files with
  | nil =>
    intro acc
    simp [serData]
  | cons e t ih =>
    intro acc
    rw [List.foldl_cons, ih, serData]
    have hnl : ("\n" : String).data = ['\n'] := rfl
    simp [String.data_append, hnl]

lemma toDeterministicString_data (files : List SignatureFileEntry) :
    (toDeterministicString files).data = serData files := by
  unfold toDeterministicString
  rw [toDeterministicString_foldl_data]
  rfl

end SignatureFilesEntry

/-! ## Claim theorems: files entry -/

open SignatureFilesEntry in
/-- C1: the first loop of the files entry's content check examines each
on-disk relative path (backslashes normalised to forward slashes) outside
the skip set — `signature.json`, plus `package.json` exactly when some
entry tag is `packageJson/v1alpha1` — and fails `Compromised` with the
"exists in the package, but was not in the signature" reason when the path
is not listed, else with the "mismatched hash" reason when the on-disk
SHA-512 differs from the listed hash; when no on-disk path triggers either
case the loop produces no failure (and any failure it produces is the
result of the whole content check). -/
theorem filesEntry_diskLoop_spec (files : List SignatureFileEntry)
    (context : SignatureFilesEntry.VerificationContext) :
    (∀ p, scanFiles files p = none ↔ ∀ e ∈ files, e.path ≠ p)
    ∧ (checkFilesOnDisk files context context.relFilesOnDisk = none ↔
        ∀ f ∈ context.relFilesOnDisk, passesDiskCheck files context f)
    ∧ (∀ r, checkFilesOnDisk files context context.relFilesOnDisk = some r →
        SignatureFilesEntry.verify files context = some r ∧
        ∃ f ∈ context.relFilesOnDisk, ¬ passesDiskCheck files context f ∧
          ((scanFiles files (normalise f) = none ∧
            r = compromisedResult context
              (normalise f ++ " exists in the package, but was not in the signature")) ∨
           (∃ hh, scanFiles files (normalise f) = some hh ∧
            context.sha512OfFile (context.dir ++ "/" ++ normalise f) ≠ hh ∧
            r = compromisedResult context
              (normalise f ++ " does not have content that was signed for (mismatched hash)")))) := by
  refine ⟨scanFiles_eq_none_iff files, checkFilesOnDisk_eq_none_iff files context _, ?_⟩
  intro r h
  refine ⟨?_, checkFilesOnDisk_eq_some files context _ r h⟩
  unfold SignatureFilesEntry.verify
  rw [h]

open SignatureFilesEntry in
/-- C1 witness: a directory containing the single unlisted file `evil.txt`
makes the first loop (and the whole check) fail with the
"exists in the package, but was not in the signature" reason. -/
theorem filesEntry_diskLoop_spec_witness :
    SignatureFilesEntry.verify [] wCtxExtra =
      some (compromisedResult wCtxExtra
        "evil.txt exists in the package, but was not in the signature")
    ∧ ∃ f ∈ wCtxExtra.relFilesOnDisk, ¬ passesDiskCheck [] wCtxExtra f := by
  obtain ⟨hv, f, hf, hnp, _⟩ :=
    (filesEntry_diskLoop_spec [] wCtxExtra).2.2
      (compromisedResult wCtxExtra
        "evil.txt exists in the package, but was not in the signature") (by decide)
  exact ⟨hv, f, hf, hnp⟩

open SignatureFilesEntry in
/-- C2: the second loop of the files entry's content check fails
`Compromised` with the "is expected by the signature, but is missing in the
package" reason exactly for a listed path other than `signature.json` that
does not occur among the normalised on-disk paths — `package.json` is not
exempted here — and it runs only when the first loop produced no
failure. -/
theorem filesEntry_signatureLoop_spec (files : List SignatureFileEntry)
    (context : SignatureFilesEntry.VerificationContext) :
    (checkFilesOnDisk files context context.relFilesOnDisk = none →
      SignatureFilesEntry.verify files context =
        checkFilesInSignature context files)
    ∧ (checkFilesInSignature context files = none ↔
        ∀ e ∈ files, e.path = "signature.json" ∨
          ∃ f ∈ context.relFilesOnDisk, normalise f = e.path)
    ∧ (∀ r, checkFilesInSignature context files = some r →
        ∃ e ∈ files, e.path ≠ "signature.json" ∧
          (∀ f ∈ context.relFilesOnDisk, normalise f ≠ e.path) ∧
          r = compromisedResult context
            (e.path ++ " is expected by the signature, but is missing in the package")) := by
  refine ⟨?_, checkFilesInSignature_eq_none_iff context files,
    fun r h => checkFilesInSignature_eq_some context files r h⟩
  intro h
  unfold SignatureFilesEntry.verify
  rw [h]

open SignatureFilesEntry in
/-- C2 witness: a signature listing `a.txt` over an empty directory makes
the second loop report `a.txt` as missing, and the whole check returns the
second loop's result since the first loop passes on an empty directory. -/
theorem filesEntry_signatureLoop_spec_witness :
    SignatureFilesEntry.verify [⟨"a.txt", "H"⟩] wCtxEmptyDisk =
      checkFilesInSignature wCtxEmptyDisk [⟨"a.txt", "H"⟩]
    ∧ ∃ e ∈ ([⟨"a.txt", "H"⟩] : List SignatureFileEntry),
        e.path ≠ "signature.json" ∧
        (∀ f ∈ wCtxEmptyDisk.relFilesOnDisk, normalise f ≠ e.path) ∧
        compromisedResult wCtxEmptyDisk
            "a.txt is expected by the signature, but is missing in the package" =
          compromisedResult wCtxEmptyDisk
            (e.path ++ " is expected by the signature, but is missing in the package") := by
  obtain ⟨h1, _, h3⟩ := filesEntry_signatureLoop_spec [⟨"a.txt", "H"⟩] wCtxEmptyDisk
  exact ⟨h1 rfl, h3 _ rfl⟩

open SignatureFilesEntry in
/-- C9: the inner search of the first loop scans the whole files list
without stopping at the first match, so the hash compared against disk is
that of the last occurrence of the path; a file whose SHA-512 equals an
earlier occurrence's hash but not the last one's is reported as a mismatch
with the "does not have content that was signed for (mismatched hash)"
reason. -/
theorem filesEntry_lastOccurrence_spec :
    (∀ (files : List SignatureFileEntry) (p : String),
      scanFiles files p =
        ((files.filter (fun e => e.path == p)).getLast?).map (fun e => e.sha512))
    ∧ (∀ (files : List SignatureFileEntry)
        (context : SignatureFilesEntry.VerificationContext)
        (f : String) (rest : List String) (hLast : String),
        context.relFilesOnDisk = f :: rest →
        normalise f ≠ "signature.json" →
        ¬ (normalise f = "package.json" ∧
            skipPackageJsonExactVerification context = true) →
        scanFiles files (normalise f) = some hLast →
        (∃ e ∈ files, e.path = normalise f ∧
          e.sha512 = context.sha512OfFile (context.dir ++ "/" ++ normalise f)) →
        context.sha512OfFile (context.dir ++ "/" ++ normalise f) ≠ hLast →
        SignatureFilesEntry.verify files context =
          some (compromisedResult context
            (normalise f ++ " does not have content that was signed for (mismatched hash)"))) := by
  refine ⟨scanFiles_eq_getLast, ?_⟩
  intro files context f rest hLast hdisk h1 h2 hscan _ hne
  unfold SignatureFilesEntry.verify
  rw [hdisk, checkFilesOnDisk]
  rw [if_neg (by simpa using h1)]
  rw [if_neg (by simpa [Bool.and_eq_true] using h2)]
  simp only [hscan]
  rw [if_pos hne]

open SignatureFilesEntry in
/-- C9 witness: with `x` listed twice (hashes `"A"` then `"B"`) and the
on-disk `x` hashing to `"A"` — the earlier occurrence's hash — the check
still reports a mismatched hash, because the last occurrence (`"B"`) is the
one compared. -/
theorem filesEntry_lastOccurrence_spec_witness :
    scanFiles [⟨"x", "A"⟩, ⟨"x", "B"⟩] "x" = some "B"
    ∧ SignatureFilesEntry.verify [⟨"x", "A"⟩, ⟨"x", "B"⟩] wCtxDup =
        some (compromisedResult wCtxDup
          "x does not have content that was signed for (mismatched hash)") := by
  refine ⟨rfl, ?_⟩
  exact filesEntry_lastOccurrence_spec.2 [⟨"x", "A"⟩, ⟨"x", "B"⟩] wCtxDup
    "x" [] "B" rfl (by decide) (by decide) (by decide)
    ⟨⟨"x", "A"⟩, by decide, by decide, by decide⟩ (by decide)

open SignatureFilesEntry in
/-- C3 (amended): the canonical serialization of a files entry is the
concatenation, over the `(path, sha512)` pairs in their stored order, of
path, a line feed (0x0A), sha512, a line feed, with no sorting; and —
provided no path or hash contains a line-feed character (as with real
paths and hex SHA-512 digests) — two files lists that differ at some
position serialize to different byte strings. -/
theorem files_toDeterministicString_spec :
    (∀ files : List SignatureFileEntry,
      (toDeterministicString files).data = serData files)
    ∧ (∀ l1 l2 : List SignatureFileEntry,
        (∀ e ∈ l1, lineFree e.path ∧ lineFree e.sha512) →
        (∀ e ∈ l2, lineFree e.path ∧ lineFree e.sha512) →
        l1 ≠ l2 →
        toDeterministicString l1 ≠ toDeterministicString l2) := by
  refine ⟨toDeterministicString_data, ?_⟩
  intro l1 l2 h1 h2 hne heq
  refine hne (serData_inj l1 l2 h1 h2 ?_)
  rw [← toDeterministicString_data, ← toDeterministicString_data, heq]

open SignatureFilesEntry in
/-- C3 witness: two line-feed-free singleton lists with different hashes
serialize differently. -/
theorem files_toDeterministicString_spec_witness :
    (∀ e ∈ ([⟨"a.txt", "AA"⟩] : List SignatureFileEntry),
      lineFree e.path ∧ lineFree e.sha512)
    ∧ (∀ e ∈ ([⟨"a.txt", "BB"⟩] : List SignatureFileEntry),
      lineFree e.path ∧ lineFree e.sha512)
    ∧ ([⟨"a.txt", "AA"⟩] : List SignatureFileEntry) ≠ [⟨"a.txt", "BB"⟩]
    ∧ toDeterministicString [⟨"a.txt", "AA"⟩] ≠
        toDeterministicString [⟨"a.txt", "BB"⟩] :=
  ⟨by decide, by decide, by decide,
    files_toDeterministicString_spec.2 [⟨"a.txt", "AA"⟩] [⟨"a.txt", "BB"⟩]
      (by decide) (by decide) (by decide)⟩

open SignatureFilesEntry in
/-- C3 counterexample: the claim as stated — any two files entries holding
the same pairs in different orders serialize differently — fails when a
path or hash contains a line feed: the two lists below hold the same two
pairs in opposite orders yet serialize to the same byte string, because
the serializer inserts no escaping around the line-feed separators. -/
theorem files_toDeterministicString_order_collision :
    ([⟨"a", "a"⟩, ⟨"a\na", "a\na"⟩] : List SignatureFileEntry) ≠
      [⟨"a\na", "a\na"⟩, ⟨"a", "a"⟩]
    ∧ List.Perm ([⟨"a", "a"⟩, ⟨"a\na", "a\na"⟩] : List SignatureFileEntry)
        [⟨"a\na", "a\na"⟩, ⟨"a", "a"⟩]
    ∧ toDeterministicString [⟨"a", "a"⟩, ⟨"a\na", "a\na"⟩] =
        toDeterministicString [⟨"a\na", "a\na"⟩, ⟨"a", "a"⟩] :=
  ⟨by decide, List.Perm.swap _ _ _, by decide⟩

/-! ## Helper lemmas: module verifier -/

namespace ModuleVerifier

lemma findEntryFailure_eq_some (context : VerificationContext)
    (entries : List SignatureEntry) (r : ModuleVerificationResult)
    (h : findEntryFailure context entries = some r) :
    ∃ e ∈ entries, e.verifyEntry context = some r := by
  induction entries with
  | nil => exact Option.noConfusion h
  | cons e rest ih =>
    rw [findEntryFailure] at h
    rcases he : e.verifyEntry context with _ | r'
    · rw [he] at h
      obtain ⟨g, hg, hgr⟩ := ih h
      exact ⟨g, List.mem_cons_of_mem _ hg, hgr⟩
    · rw [he] at h
      cases h
      exact ⟨e, List.mem_cons_self e rest, he⟩

lemma verifyTail_status (env : VerifierEnv) (expectedPackageName : String)
    (identity : SignatureIdentity) (verified : Bool) :
    (verifyTail env expectedPackageName identity verified).status =
        ModuleVerificationStatus.Compromised ∨
      (verifyTail env expectedPackageName identity verified).status =
        ModuleVerificationStatus.Untrusted ∨
      (verifyTail env expectedPackageName identity verified).status =
        ModuleVerificationStatus.Trusted := by
  unfold verifyTail
  split
  · exact Or.inl rfl
  · split
    · exact Or.inl rfl
    · split
      · exact Or.inl rfl
      · split
        · exact Or.inr (Or.inr rfl)
        · exact Or.inr (Or.inl rfl)

lemma verify_eq_verifyTail (env : VerifierEnv) (dir : String)
    (relFilesOnDisk : List String) (expectedPackageName : String)
    (s : SignatureInfo) (identity : SignatureIdentity) (b : Bool)
    (hp : env.parsedSignature = some s)
    (he : findEntryFailure ⟨dir, relFilesOnDisk, expectedPackageName⟩ s.entries = none)
    (hi : findIdentity s.entries = some identity)
    (hroute :
      (identity.keybaseUser.isSome = true ∧
        env.keybaseVerify identity s.signature (createDeterministicString s) = b)
      ∨ (identity.keybaseUser = none ∧ identity.pgpPublicKeyUrl.isSome = true ∧
        env.pgpVerify identity s.signature (createDeterministicString s) = b)) :
    verify env dir relFilesOnDisk expectedPackageName =
      verifyTail env expectedPackageName identity b := by
  unfold verify
  rw [hp]
  simp only [he, hi]
  rcases hroute with ⟨hk, hv⟩ | ⟨hk, hu, hv⟩
  · rw [if_pos hk, hv]
  · rw [hk]
    simp only [Option.isSome_none, Bool.false_eq_true, if_false]
    rw [if_pos hu, hv]

end ModuleVerifier

/-! ## Claim theorems: module verifier -/

open ModuleVerifier in
/-- C4: when the signature document parses, every entry's content check
passes, an identity is extracted and routed to its verifier, and the
verifier rejects the canonical message, `verify` returns `Compromised`
with reason "The signature does not match" — whatever the state of
`package.json` (the environment's `packageJson` component is arbitrary
here), because `package.json` is only consulted after the verifier has
accepted. -/
theorem moduleVerifier_signature_mismatch (env : VerifierEnv) (dir : String)
    (relFilesOnDisk : List String) (expectedPackageName : String)
    (s : SignatureInfo) (identity : SignatureIdentity)
    (hp : env.parsedSignature = some s)
    (he : findEntryFailure ⟨dir, relFilesOnDisk, expectedPackageName⟩ s.entries = none)
    (hi : findIdentity s.entries = some identity)
    (hroute :
      (identity.keybaseUser.isSome = true ∧
        env.keybaseVerify identity s.signature (createDeterministicString s) = false)
      ∨ (identity.keybaseUser = none ∧ identity.pgpPublicKeyUrl.isSome = true ∧
        env.pgpVerify identity s.signature (createDeterministicString s) = false)) :
    ModuleVerifier.verify env dir relFilesOnDisk expectedPackageName =
      { status := ModuleVerificationStatus.Compromised
        packageName := expectedPackageName
        reason := some "The signature does not match"
        untrustedIdentity := none } := by
  rw [verify_eq_verifyTail env dir relFilesOnDisk expectedPackageName s identity
    false hp he hi hroute]
  rfl

open ModuleVerifier in
/-- C4 witness: a parsed one-entry document signed by Keybase user alice,
a verifier that rejects, an unreadable `package.json`, and a trust store
that trusts everything still yield the signature-mismatch verdict. -/
theorem moduleVerifier_signature_mismatch_witness :
    ModuleVerifier.verify wEnvReject "d" ["f.txt"] "p" =
      { status := ModuleVerificationStatus.Compromised
        packageName := "p"
        reason := some "The signature does not match"
        untrustedIdentity := none } :=
  moduleVerifier_signature_mismatch wEnvReject "d" ["f.txt"] "p"
    wSigDoc ⟨some "alice", none⟩ rfl rfl rfl (Or.inl ⟨rfl, rfl⟩)

open ModuleVerifier in
/-- C5: provided every entry failure carries the `Compromised` status (as
every entry type constructed by the parser guarantees), `verify` returns
the `Unsigned` status exactly when reading or parsing `signature.json`
failed; in that case the result is exactly `Unsigned` with reason
"Missing or unparsable signature.json" and the expected package name, and
in every other case the status is `Compromised`, `Untrusted` or
`Trusted`. -/
theorem moduleVerifier_unsigned_iff (env : VerifierEnv) (dir : String)
    (relFilesOnDisk : List String) (expectedPackageName : String)
    (hC : ∀ s, env.parsedSignature = some s →
      ∀ e ∈ s.entries, ∀ r,
        e.verifyEntry ⟨dir, relFilesOnDisk, expectedPackageName⟩ = some r →
        r.status = ModuleVerificationStatus.Compromised) :
    ((ModuleVerifier.verify env dir relFilesOnDisk expectedPackageName).status =
        ModuleVerificationStatus.Unsigned ↔ env.parsedSignature = none)
    ∧ (env.parsedSignature = none →
        ModuleVerifier.verify env dir relFilesOnDisk expectedPackageName =
          { status := ModuleVerificationStatus.Unsigned
            packageName := expectedPackageName
            reason := some "Missing or unparsable signature.json"
            untrustedIdentity := none })
    ∧ (env.parsedSignature ≠ none →
        (ModuleVerifier.verify env dir relFilesOnDisk expectedPackageName).status =
          ModuleVerificationStatus.Compromised ∨
        (ModuleVerifier.verify env dir relFilesOnDisk expectedPackageName).status =
          ModuleVerificationStatus.Untrusted ∨
        (ModuleVerifier.verify env dir relFilesOnDisk expectedPackageName).status =
          ModuleVerificationStatus.Trusted) := by
  have hmain : ∀ s, env.parsedSignature = some s →
      (ModuleVerifier.verify env dir relFilesOnDisk expectedPackageName).status =
        ModuleVerificationStatus.Compromised ∨
      (ModuleVerifier.verify env dir relFilesOnDisk expectedPackageName).status =
        ModuleVerificationStatus.Untrusted ∨
      (ModuleVerifier.verify env dir relFilesOnDisk expectedPackageName).status =
        ModuleVerificationStatus.Trusted := by
    intro s hp
    unfold ModuleVerifier.verify
    rw [hp]
    simp only
    rcases hf : findEntryFailure ⟨dir, relFilesOnDisk, expectedPackageName⟩
        s.entries with _ | r
    · rcases hid : findIdentity s.entries with _ | identity
      · simp
      · by_cases hk : identity.keybaseUser.isSome
        · simp only [if_pos hk]
          exact verifyTail_status env expectedPackageName identity _
        · simp only [if_neg hk]
          by_cases hu : identity.pgpPublicKeyUrl.isSome
          · simp only [if_pos hu]
            exact verifyTail_status env expectedPackageName identity _
          · simp only [if_neg hu]
            simp
    · obtain ⟨e, he, her⟩ := findEntryFailure_eq_some _ _ _ hf
      exact Or.inl (hC s hp e he r her)
  rcases hp : env.parsedSignature with _ | s
  · refine ⟨?_, ?_, ?_⟩
    · constructor
      · intro _
        rfl
      · intro _
        unfold ModuleVerifier.verify
        rw [hp]
    · intro _
      unfold ModuleVerifier.verify
      rw [hp]
    · intro hc
      exact absurd rfl hc
  · refine ⟨?_, ?_, ?_⟩
    · constructor
      · intro hs
        rcases hmain s hp with h | h | h <;> (rw [hs] at h; exact absurd h (by decide))
      · intro hc
        exact Option.noConfusion hc
    · intro hc
      exact Option.noConfusion hc
    · intro _
      exact hmain s hp

open ModuleVerifier in
/-- C5 witness: with `signature.json` missing or unparsable, `verify`
returns exactly the `Unsigned` verdict with its fixed reason and the
expected package name. -/
theorem moduleVerifier_unsigned_iff_witness :
    ModuleVerifier.verify wEnvNoSig "d" ["f.txt"] "p" =
      { status := ModuleVerificationStatus.Unsigned
        packageName := "p"
        reason := some "Missing or unparsable signature.json"
        untrustedIdentity := none } :=
  (moduleVerifier_unsigned_iff wEnvNoSig "d" ["f.txt"] "p"
    (fun _ hs => Option.noConfusion hs)).2.1 rfl

open ModuleVerifier in
/-- C10: after a successful cryptographic verification, a `package.json`
that parses to an object with an absent or empty (falsy) `name` is
compared as the empty string — failing with the name-mismatch reason for
every non-empty expected name, and passing the name check (falling through
to the trust store) when the expected name is the empty string — and a
`package.json` whose entire content is JSON `null` yields the same
name-mismatch verdict rather than a parse failure. -/
theorem moduleVerifier_packageName_falsy (env : VerifierEnv) (dir : String)
    (relFilesOnDisk : List String) (expectedPackageName : String)
    (s : SignatureInfo) (identity : SignatureIdentity)
    (hp : env.parsedSignature = some s)
    (he : findEntryFailure ⟨dir, relFilesOnDisk, expectedPackageName⟩ s.entries = none)
    (hi : findIdentity s.entries = some identity)
    (hroute :
      (identity.keybaseUser.isSome = true ∧
        env.keybaseVerify identity s.signature (createDeterministicString s) = true)
      ∨ (identity.keybaseUser = none ∧ identity.pgpPublicKeyUrl.isSome = true ∧
        env.pgpVerify identity s.signature (createDeterministicString s) = true)) :
    (env.packageJson = some PackageJson.jnull →
      ModuleVerifier.verify env dir relFilesOnDisk expectedPackageName =
        { status := ModuleVerificationStatus.Compromised
          packageName := expectedPackageName
          reason := some "Provided package name in package.json did not match expected package name"
          untrustedIdentity := none })
    ∧ (∀ nm, env.packageJson = some (PackageJson.jobj nm) →
        nm = none ∨ nm = some "" →
        (expectedPackageName ≠ "" →
          ModuleVerifier.verify env dir relFilesOnDisk expectedPackageName =
            { status := ModuleVerificationStatus.Compromised
              packageName := expectedPackageName
              reason := some "Provided package name in package.json did not match expected package name"
              untrustedIdentity := none })
        ∧ (expectedPackageName = "" →
          ModuleVerifier.verify env dir relFilesOnDisk expectedPackageName =
            (if env.isTrusted identity expectedPackageName then
              { status := ModuleVerificationStatus.Trusted
                packageName := expectedPackageName
                reason := none
                untrustedIdentity := none }
            else
              { status := ModuleVerificationStatus.Untrusted
                packageName := expectedPackageName
                reason := none
                untrustedIdentity := some identity }))) := by
  have htail := verify_eq_verifyTail env dir relFilesOnDisk expectedPackageName
    s identity true hp he hi hroute
  constructor
  · intro hj
    rw [htail]
    unfold verifyTail
    rw [hj]
    simp [packageJsonIsNull]
  · intro nm hj hnm
    have hname : effectiveName (PackageJson.jobj nm) = "" := by
      rcases hnm with rfl | rfl <;> rfl
    constructor
    · intro hne
      rw [htail]
      unfold verifyTail
      rw [hj]
      simp only [Bool.not_true, Bool.false_eq_true, if_false]
      rw [if_pos]
      simp only [packageJsonIsNull, hname, Bool.false_or, decide_eq_true_eq]
      exact fun hc => hne hc.symm
    · intro hemp
      rw [htail]
      unfold verifyTail
      rw [hj]
      simp only [Bool.not_true, Bool.false_eq_true, if_false]
      rw [if_neg]
      simp only [packageJsonIsNull, hname, hemp, Bool.false_or, decide_eq_true_eq]
      exact fun hc => hc rfl

open ModuleVerifier in
/-- C10 witness: with a validating signature and a `package.json` whose
content is JSON `null`, `verify` reports the name-mismatch `Compromised`
verdict, not a parse failure. -/
theorem moduleVerifier_packageName_falsy_witness :
    ModuleVerifier.verify wEnvNullPkg "d" ["f.txt"] "p" =
      { status := ModuleVerificationStatus.Compromised
        packageName := "p"
        reason := some "Provided package name in package.json did not match expected package name"
        untrustedIdentity := none } :=
  (moduleVerifier_packageName_falsy wEnvNullPkg "d" ["f.txt"] "p"
    wSigDoc ⟨some "alice", none⟩ rfl rfl rfl (Or.inl ⟨rfl, rfl⟩)).1 rfl

end Pkgsign
